import Mathlib

/-!
Verification of the fabric_ceph multi-cluster Ceph administration gateway.

This file gives a shallow embedding, in Lean, of the pure decision logic of
the repository:

* the configuration subsystem's boolean coercion and duration parser
  (src/fabric_ceph/common/config.py),
* the Dashboard client's TLS-verification coercion
  (src/fabric_ceph/utils/dash_client.py),
* the export-users authorization gate
  (src/fabric_ceph/response/cluster_user_controller.py),
* the keyring text parser (src/fabric_ceph/utils/keyring_parser.py),
* the cross-cluster user orchestration
  (src/fabric_ceph/utils/create_ceph_user.py), and
* the first-success export loop (src/fabric_ceph/utils/export_ceph_user.py).

Remote-cluster interaction (Dashboard REST calls and SSH sessions) is
modelled by behaviour records: each external operation a cluster can be
asked to perform is a field holding that operation's outcome
(an Except value, mirroring Python exceptions).  The orchestration
functions are translated statement by statement from the Python source;
every external call additionally logs an event so that theorems can speak
about which clusters were contacted.
-/

namespace FabricCeph

/-! ## A small model of Python values

Only the runtime value shapes the configuration coercion `_bool`
actually receives are modelled: booleans, strings, integers and None. -/

inductive PyVal where
  | bool (b : Bool)
  | str (s : String)
  | int (n : Int)
  | pynone
deriving DecidableEq

/-- Python whitespace for str.strip() and the regex class backslash-s
(space, tab, newline, carriage return, vertical tab, form feed). -/
def pyIsSpace (c : Char) : Bool :=
  c == ' ' || c == '\t' || c == '\n' || c == '\r' || c == '\x0b' || c == '\x0c'

/-- Python str.strip(): drop leading and trailing whitespace. -/
def pyStrip (s : String) : String :=
  String.mk (((s.toList.dropWhile pyIsSpace).reverse.dropWhile pyIsSpace).reverse)

/-- Python str.lower(), restricted to ASCII (all inputs of interest are ASCII). -/
def pyLower (s : String) : String :=
  String.mk (s.toList.map Char.toLower)

/-- Python truthiness bool(x) for the modelled value shapes. -/
def pyTruthy : PyVal → Bool
  | .bool b => b
  | .str s => s != ""
  | .int n => n != 0
  | .pynone => false

/-- Embeds `_bool` from src/fabric_ceph/common/config.py (lines 72-77):
native booleans are returned as is; strings are stripped, lower-cased and
compared against the five truthy spellings; every other value falls through
to Python's own truthiness bool(x). -/
def pyBool : PyVal → Bool
  | .bool b => b
  | .str s => (["1", "true", "yes", "y", "on"] : List String).contains (pyLower (pyStrip s))
  | x => pyTruthy x

/-- The truthy-string set used by DashClient.for_cluster
(src/fabric_ceph/utils/dash_client.py line 29); note it lacks the
spelling y that `_bool` accepts. -/
def dashVerifyTlsSet : List String := ["1", "true", "yes", "on"]

/-- Embeds the verify_tls computation of DashClient.for_cluster
(src/fabric_ceph/utils/dash_client.py lines 22-30): when the
CLUSTER_VERIFY_TLS environment variable is unset the scheme decides;
otherwise the variable is stripped, lower-cased and looked up in
`dashVerifyTlsSet`. -/
def forClusterVerifyTls (schemeIsHttps : Bool) (envVal : Option String) : Bool :=
  match envVal with
  | Option.none => schemeIsHttps
  | Option.some s => dashVerifyTlsSet.contains (pyLower (pyStrip s))

/-! ## Export-users authorization gate

Embeds the two guards of export_users in
src/fabric_ceph/response/cluster_user_controller.py (lines 133-138):

    if len(entities) == 1 and bastion_login.lower() not in entities[0].lower():
        return cors_401(...)
    if len(entities) > 1 and not is_operator:
        return cors_401(...)

Note the first guard does not consult is_operator. -/

deriving instance DecidableEq for Except

/-- Boolean contiguous-sublist test on lists. -/
def isInfixB (n : List Char) : List Char → Bool
  | [] => n.isPrefixOf []
  | c :: t => n.isPrefixOf (c :: t) || isInfixB n t

/-- Python substring containment (the in operator on strings). -/
def pyIn (needle hay : String) : Bool :=
  isInfixB needle.toList hay.toList

inductive AuthDecision where
  | reject401
  | proceed
deriving DecidableEq

/-- The authorization gate of the export_users endpoint, given the caller's
operator flag and bastion login and the requested entity list. -/
def exportUsersAuth (isOperator : Bool) (bastionLogin : String)
    (entities : List String) : AuthDecision :=
  if entities.length = 1 ∧ pyIn (pyLower bastionLogin) (pyLower (entities.headD "")) = false then
    .reject401
  else if entities.length > 1 ∧ isOperator = false then
    .reject401
  else .proceed

/-! ## Duration parsing

Embeds parse_hms_to_timedelta and its regex _HMS_RE from
src/fabric_ceph/common/config.py (lines 57-69):

    _HMS_RE = caret backslash-s* (d digit-1-2) colon ([0-5]d) colon ([0-5]d) backslash-s* dollar

The regex is anchored at both ends, allows surrounding whitespace, a one- or
two-digit hour and 00-59 minutes and seconds.  The timedelta is modelled as
its total number of seconds. -/

def digitVal (c : Char) : Nat := c.toNat - '0'.toNat

/-- Character class [0-5]. -/
def isHighDigit (c : Char) : Bool := '0' ≤ c && c ≤ '5'

/-- Match the tail m1 m2 colon s1 s2 whitespace* of the duration regex, the
hour value having already been read. -/
def hmsTail (h : Nat) (tail : List Char) : Option (Nat × Nat × Nat) :=
  match tail with
  | m1 :: m2 :: ':' :: s1 :: s2 :: rest =>
    if isHighDigit m1 && m2.isDigit && isHighDigit s1 && s2.isDigit && rest.all pyIsSpace then
      some (h, 10 * digitVal m1 + digitVal m2, 10 * digitVal s1 + digitVal s2)
    else Option.none
  | _ => Option.none

/-- Match what follows the first hour digit: either a second hour digit and
a colon, or directly a colon.  Mirrors the backtracking of the d-1-2 hour
field: try two digits followed by a colon, else one digit followed by a
colon. -/
def matchHourTail (d1 : Char) (rest : List Char) : Option (Nat × Nat × Nat) :=
  match rest with
  | d2 :: ':' :: tail =>
    if d2.isDigit then hmsTail (10 * digitVal d1 + digitVal d2) tail else Option.none
  | ':' :: tail => hmsTail (digitVal d1) tail
  | _ => Option.none

/-- Match the full duration regex against a character list, returning the
hour, minute and second fields. -/
def matchHMS (cs : List Char) : Option (Nat × Nat × Nat) :=
  match cs.dropWhile pyIsSpace with
  | d1 :: rest => if d1.isDigit then matchHourTail d1 rest else Option.none
  | [] => Option.none

/-- parse_hms_to_timedelta from src/fabric_ceph/common/config.py: the matched
duration in total seconds, or a ValueError for non-matching input. -/
def parse_hms_to_timedelta (s : String) : Except String Nat :=
  match matchHMS s.toList with
  | some (h, m, sec) => Except.ok (h * 3600 + m * 60 + sec)
  | Option.none => Except.error ("Invalid HH:MM:SS duration: " ++ s)

/-- The decimal value of a digit string. -/
def decimalVal (l : List Char) : Nat := l.foldl (fun a c => 10 * a + digitVal c) 0

/-- Specification-shaped characterization of the strings the duration regex
accepts: optional whitespace, a one- or two-digit hour, colon, a 00-59
minute pair, colon, a 00-59 second pair, optional whitespace; h, m and s
are the three field values. -/
def hmsShape (cs : List Char) (h m s : Nat) : Prop :=
  ∃ ws1 hd m1 m2 u1 u2 ws2,
    cs = ws1 ++ hd ++ ':' :: m1 :: m2 :: ':' :: u1 :: u2 :: ws2 ∧
    (∀ c ∈ ws1, pyIsSpace c = true) ∧ (∀ c ∈ ws2, pyIsSpace c = true) ∧
    (∀ c ∈ hd, c.isDigit = true) ∧ (hd.length = 1 ∨ hd.length = 2) ∧
    isHighDigit m1 = true ∧ m2.isDigit = true ∧
    isHighDigit u1 = true ∧ u2.isDigit = true ∧
    h = decimalVal hd ∧ m = 10 * digitVal m1 + digitVal m2 ∧
    s = 10 * digitVal u1 + digitVal u2

/-! ## Keyring text parser

Embeds extract_key_from_keyring from src/fabric_ceph/utils/keyring_parser.py.
The two regexes are multiline and line-anchored, so the text is modelled as
its list of newline-separated lines:

* a section header line matches caret backslash-s* bracket (name) bracket
  backslash-s* dollar, name nonempty and free of closing brackets;
* a key line matches caret backslash-s* key backslash-s* equals backslash-s*
  (base64 chars) backslash-s* dollar.

re.split with a capture group is modelled by `splitSections`, which returns
the prelude lines before the first header together with the list of sections,
each carrying its raw header line, the extracted section name, and its body
lines (the lines strictly between this header and the next). -/

/-- Does the line match the section-header pattern?  Returns the captured
section name. -/
def parseHeaderName (l : List Char) : Option String :=
  match l.dropWhile pyIsSpace with
  | '[' :: rest =>
    match rest.dropWhile (fun c => c != ']') with
    | ']' :: tail =>
      if (rest.takeWhile (fun c => c != ']')) ≠ [] ∧ tail.all pyIsSpace = true then
        some (String.mk (rest.takeWhile (fun c => c != ']')))
      else Option.none
    | _ => Option.none
  | _ => Option.none

/-- Base64 alphabet of the key regex: [A-Za-z0-9+/=]. -/
def isB64Char (c : Char) : Bool := c.isAlphanum || c == '+' || c == '/' || c == '='

/-- Does the line match the key pattern?  Returns the captured base64 value. -/
def keyLineValue (l : List Char) : Option String :=
  match l.dropWhile pyIsSpace with
  | 'k' :: 'e' :: 'y' :: rest =>
    (match rest.dropWhile pyIsSpace with
     | '=' :: r2 =>
       let r3 := r2.dropWhile pyIsSpace
       if (r3.takeWhile isB64Char) ≠ [] ∧ (r3.dropWhile isB64Char).all pyIsSpace = true then
         some (String.mk (r3.takeWhile isB64Char))
       else Option.none
     | _ => Option.none)
  | _ => Option.none

/-- First key-line value among a list of lines (re search over a body). -/
def findKeyInLines (ls : List String) : Option String :=
  ls.findSome? (fun l => keyLineValue l.toList)

/-- Split a character list on newline characters (structural-recursion
counterpart of String.splitOn used to present the text line by line). -/
def splitOnNl : List Char → List (List Char)
  | [] => [[]]
  | c :: rest =>
    if c = '\n' then [] :: splitOnNl rest
    else
      match splitOnNl rest with
      | [] => [[c]]
      | l :: ls => (c :: l) :: ls

/-- The lines of a string. -/
def pyLines (s : String) : List String := (splitOnNl s.toList).map String.mk

/-- Split a list of lines into the prelude before the first header and the
sections, each as (raw header line, section name, body lines). -/
def splitSections : List String → List String × List (String × String × List String)
  | [] => ([], [])
  | l :: rest =>
    let s := splitSections rest
    match parseHeaderName l.toList with
    | some n => ([], (l, n, s.1) :: s.2)
    | Option.none => (l :: s.1, s.2)

/-- extract_key_from_keyring from src/fabric_ceph/utils/keyring_parser.py:
empty text or entity gives None; if the split yields no section (fewer than
three pieces from re.split) a bare whole-text key search is used; otherwise
the first section whose stripped name equals the entity is searched, and
absence of such a section gives None. -/
def extract_key_from_keyring (keyring_text entity : String) : Option String :=
  if keyring_text = "" ∨ entity = "" then Option.none
  else
    let lines := pyLines keyring_text
    let sects := (splitSections lines).2
    if sects.isEmpty then findKeyInLines lines
    else
      match sects.find? (fun t => pyStrip t.2.1 == entity) with
      | some t => findKeyInLines t.2.2
      | Option.none => Option.none

/-! ## Cross-cluster user orchestration

Embeds ensure_user_across_clusters_with_cluster_paths from
src/fabric_ceph/utils/create_ceph_user.py together with its helpers
_resolve_subvol_path and _render_caps.

The configured clusters are a list of (name, behaviour) pairs in
configuration-file order (Python dict iteration order is insertion order).
A ClusterBehavior gives the outcome of each external operation the
orchestration can request from that cluster; an Except.error models a Python
exception escaping the call.  The SSH keyring-import block (SSHCreds /
SSHRunner, whose module is not part of the source tree) is summarised by a
single sshImport outcome covering credential resolution, the file transfer,
the auth-import command and cleanup, per sections 4.8 and 4.9 of the spec.

Every external call is logged as a CephOp event so theorems can state which
clusters an execution touched. -/

/-- One Dashboard user record as consumed by the source-selection loop:
the values of the user_entity, entity and id fields (None when absent). -/
structure UserRec where
  user_entity : Option String
  entity : Option String
  id : Option String
deriving DecidableEq

/-- A rendered capability entry. -/
structure CapEntry where
  entity : String
  cap : String
deriving DecidableEq

/-- One chunk of a Python format string: literal text or a named
placeholder (cap templates are pre-parsed into chunk lists). -/
inductive TChunk where
  | lit (s : String)
  | ph (k : String)
deriving DecidableEq

/-- A capability template entry: daemon entity plus cap format string. -/
structure CapTemplate where
  entity : String
  cap : List TChunk
deriving DecidableEq

/-- Python str.format over pre-parsed chunks: literal substitution of the
placeholders, a KeyError for a placeholder absent from the substitutions. -/
def formatChunks : List TChunk → List (String × String) → Except String String
  | [], _ => Except.ok ""
  | .lit t :: rest, subs => (formatChunks rest subs).map (fun r => t ++ r)
  | .ph k :: rest, subs =>
    match subs.find? (fun p => p.1 == k) with
    | some p => (formatChunks rest subs).map (fun r => p.2 ++ r)
    | Option.none => Except.error ("KeyError: " ++ k)

/-- _render_caps: render every template entry against the substitutions,
keeping the entity field unchanged; the first format failure escapes. -/
def renderCaps : List CapTemplate → List (String × String) → Except String (List CapEntry)
  | [], _ => Except.ok []
  | c :: rest, subs => do
    let cap ← formatChunks c.cap subs
    let tail ← renderCaps rest subs
    Except.ok ({ entity := c.entity, cap := cap } :: tail)

/-- The substitution mapping used by the orchestration:
fs, group (empty string when group_name is None or empty), subvol, path. -/
def clusterSubs (fs subvol : String) (group : Option String) (path : String) :
    List (String × String) :=
  [("fs", fs), ("group", group.getD ""), ("subvol", subvol), ("path", path)]

/-- Python dict get on an association list. -/
def dictGet {α : Type} (d : List (String × α)) (k : String) : Option α :=
  (d.find? (fun p => p.1 == k)).map (fun p => p.2)

/-- Python dict item assignment: overwrite in place if the key exists,
else append. -/
def dictInsert {α : Type} (d : List (String × α)) (k : String) (v : α) :
    List (String × α) :=
  if d.any (fun p => p.1 == k) then d.map (fun p => if p.1 == k then (k, v) else p)
  else d ++ [(k, v)]

/-- The string value of an absolute-path-looking entry (isinstance(p, str)
and p.startswith slash). -/
def isAbsStr : PyVal → Option String
  | .str s => if s.toList.head? = some '/' then some s else Option.none
  | _ => Option.none

/-- _resolve_subvol_path applied to the subvolume-info dictionary obtained
from the Dashboard: prefer the path-like keys in order, then fall back to
any absolute-looking string value, else fail. -/
def resolveSubvolPath (info : List (String × PyVal)) : Except String String :=
  match (["path", "full_path", "mount_path", "mountpoint"] : List String).findSome?
      (fun k => (dictGet info k).bind isAbsStr) with
  | some p => Except.ok p
  | Option.none =>
    match info.findSome? (fun p => isAbsStr p.2) with
    | some p => Except.ok p
    | Option.none => Except.error "Could not resolve subvolume path"

/-- Outcomes of the external operations one cluster can be asked to
perform; Except.error models a raised Python exception. -/
structure ClusterBehavior where
  listUsers : Except String (List UserRec)
  subvolInfo : Except String (List (String × PyVal))
  updateCaps : List CapEntry → Except String Nat
  createUser : List CapEntry → Except String Nat
  exportKeyring : Except String String
  sshImport : Except String Unit

/-- A logged external call (remote side effect), tagged with the cluster. -/
inductive CephOp where
  | listUsersOp (cluster : String)
  | subvolInfoOp (cluster : String)
  | updateCapsOp (cluster : String)
  | createUserOp (cluster : String)
  | exportKeyringOp (cluster : String)
  | sshImportOp (cluster : String)
deriving DecidableEq

/-- The cluster an event touched. -/
def CephOp.clusterOf : CephOp → String
  | .listUsersOp c => c
  | .subvolInfoOp c => c
  | .updateCapsOp c => c
  | .createUserOp c => c
  | .exportKeyringOp c => c
  | .sshImportOp c => c

/-- Python or-chaining u.get(a) or u.get(b): empty strings and None fall
through to the next alternative. -/
def pyOrStr : Option String → Option String → Option String
  | some s, b => if s = "" then b else some s
  | Option.none, b => b

/-- The identifier the source-selection loop compares against the entity:
u.get(user_entity) or u.get(entity) or u.get(id). -/
def recIdent (u : UserRec) : Option String :=
  pyOrStr u.user_entity (pyOrStr u.entity u.id)

/-- Does one user record match the requested entity? -/
def userMatches (u : UserRec) (ent : String) : Bool := recIdent u == some ent

/-- Does a cluster's user listing succeed and contain the entity?  A failed
list_users call is logged and skipped (treated as not containing). -/
def clusterHasUser (b : ClusterBehavior) (ent : String) : Bool :=
  match b.listUsers with
  | Except.ok us => us.any (fun u => userMatches u ent)
  | Except.error _ => false

/-- The source-selection loop: call list_users on each cluster in order and
stop at the first whose listing contains the entity. -/
def selectLoop : List (String × ClusterBehavior) → String → Option String × List CephOp
  | [], _ => (Option.none, [])
  | nc :: rest, ent =>
    if clusterHasUser nc.2 ent then (some nc.1, [CephOp.listUsersOp nc.1])
    else
      let s := selectLoop rest ent
      (s.1, CephOp.listUsersOp nc.1 :: s.2)

/-- Source-cluster choice (lines 124-136 of create_ceph_user.py): first
cluster already holding the entity; else preferred_source when it is truthy
(non-empty) and names a configured cluster; else the first configured
cluster (None only when no cluster is configured). -/
def chooseSource (clusters : List (String × ClusterBehavior)) (ent : String)
    (preferred : Option String) : Option String × List CephOp :=
  let s := selectLoop clusters ent
  match s.1 with
  | some n => (some n, s.2)
  | Option.none =>
    let ok : Bool := match preferred with
      | some p => (p != "") && clusters.any (fun nc => nc.1 == p)
      | Option.none => false
    if ok then (preferred, s.2)
    else ((clusters.head?).map (fun nc => nc.1), s.2)

/-- The source-cluster step (lines 143-156): resolve the source path, render
the caps, attempt update_user_caps and fall back to create_user on a
non-success status.  Returns the rendered source caps together with the
created_on_source and updated_on_source flags, or the first escaping
exception. -/
def sourceStep (n : String) (b : ClusterBehavior) (base : List CapTemplate)
    (fs subvol : String) (group : Option String) :
    Except String (List CapEntry × Bool × Bool) × List CephOp :=
  match b.subvolInfo with
  | Except.error e => (Except.error e, [CephOp.subvolInfoOp n])
  | Except.ok info =>
    match resolveSubvolPath info with
    | Except.error e => (Except.error e, [CephOp.subvolInfoOp n])
    | Except.ok path =>
      match renderCaps base (clusterSubs fs subvol group path) with
      | Except.error e => (Except.error e, [CephOp.subvolInfoOp n])
      | Except.ok caps =>
        match b.updateCaps caps with
        | Except.error e => (Except.error e, [CephOp.subvolInfoOp n, CephOp.updateCapsOp n])
        | Except.ok status =>
          if status = 200 ∨ status = 201 ∨ status = 202 then
            (Except.ok (caps, false, true), [CephOp.subvolInfoOp n, CephOp.updateCapsOp n])
          else
            match b.createUser caps with
            | Except.error e =>
              (Except.error e,
               [CephOp.subvolInfoOp n, CephOp.updateCapsOp n, CephOp.createUserOp n])
            | Except.ok _ =>
              (Except.ok (caps, true, true),
               [CephOp.subvolInfoOp n, CephOp.updateCapsOp n, CephOp.createUserOp n])

/-- The mutable aggregation of the orchestration loop. -/
structure FanState where
  imported_to : List String
  caps_applied : List (String × List CapEntry)
  errors : List (String × String)
deriving DecidableEq

/-- The caps half of the per-cluster propagation step (lines 195-201):
resolve this cluster's path, render caps against it, record them, then
overwrite via the Dashboard (the returned status is ignored). -/
def fanCaps (n : String) (b : ClusterBehavior) (base : List CapTemplate)
    (fs subvol : String) (group : Option String) (st : FanState) (tr0 : List CephOp) :
    FanState × List CephOp :=
  match b.subvolInfo with
  | Except.error e =>
    ({ st with errors := dictInsert st.errors n e }, tr0 ++ [CephOp.subvolInfoOp n])
  | Except.ok info =>
    match resolveSubvolPath info with
    | Except.error e =>
      ({ st with errors := dictInsert st.errors n e }, tr0 ++ [CephOp.subvolInfoOp n])
    | Except.ok path =>
      match renderCaps base (clusterSubs fs subvol group path) with
      | Except.error e =>
        ({ st with errors := dictInsert st.errors n e }, tr0 ++ [CephOp.subvolInfoOp n])
      | Except.ok caps =>
        let st1 := { st with caps_applied := dictInsert st.caps_applied n caps }
        match b.updateCaps caps with
        | Except.error e =>
          ({ st1 with errors := dictInsert st1.errors n e },
           tr0 ++ [CephOp.subvolInfoOp n, CephOp.updateCapsOp n])
        | Except.ok _ => (st1, tr0 ++ [CephOp.subvolInfoOp n, CephOp.updateCapsOp n])

/-- One non-source cluster's propagation step (lines 182-206): when keyring
bytes exist, push them over SSH and run auth import, marking the cluster
as imported on success; then apply this cluster's caps.  Any failure is
recorded under this cluster's name, preserving the partial effects already
made. -/
def fanStep (n : String) (b : ClusterBehavior) (base : List CapTemplate)
    (fs subvol : String) (group : Option String) (keyring : Option String)
    (st : FanState) : FanState × List CephOp :=
  match keyring with
  | some _ =>
    (match b.sshImport with
     | Except.error e =>
       ({ st with errors := dictInsert st.errors n e }, [CephOp.sshImportOp n])
     | Except.ok _ =>
       fanCaps n b base fs subvol group
         { st with imported_to := st.imported_to ++ [n] } [CephOp.sshImportOp n])
  | Option.none => fanCaps n b base fs subvol group st []

/-- The propagation loop over every cluster other than the source; a failed
step records its error and iteration continues. -/
def fanLoop (source : String) (base : List CapTemplate) (fs subvol : String)
    (group : Option String) (keyring : Option String) :
    List (String × ClusterBehavior) → FanState → FanState × List CephOp
  | [], st => (st, [])
  | nc :: rest, st =>
    if nc.1 = source then fanLoop source base fs subvol group keyring rest st
    else
      let s1 := fanStep nc.1 nc.2 base fs subvol group keyring st
      let s2 := fanLoop source base fs subvol group keyring rest s1.1
      (s2.1, s1.2 ++ s2.2)

/-- The result value of ensure_user_across_clusters_with_cluster_paths
(the UserCapsSyncResult dataclass). -/
structure SyncResult where
  user_entity : String
  fs_name : String
  subvol_name : String
  group_name : Option String
  source_cluster : String
  created_on_source : Bool
  updated_on_source : Bool
  imported_to : List String
  caps_applied : List (String × List CapEntry)
  errors : List (String × String)
deriving DecidableEq

/-- ensure_user_across_clusters_with_cluster_paths
(src/fabric_ceph/utils/create_ceph_user.py lines 97-219): choose a source
cluster, update-or-create the user there with source-rendered caps (aborting
with only the source error on failure), export the source keyring
(recording but tolerating a failure), then propagate to every other
cluster.  Returns the result and the trace of external calls;
Except.error occurs only for an empty cluster map (Python StopIteration). -/
def ensure_user_across_clusters_with_cluster_paths
    (clusters : List (String × ClusterBehavior)) (user_entity : String)
    (base : List CapTemplate) (fs subvol : String) (group preferred : Option String) :
    Except String SyncResult × List CephOp :=
  let ch := chooseSource clusters user_entity preferred
  match ch.1 with
  | Option.none => (Except.error "StopIteration", ch.2)
  | some source_name =>
    match clusters.find? (fun nc => nc.1 == source_name) with
    | Option.none => (Except.error "KeyError", ch.2)
    | some nc0 =>
      let ss := sourceStep source_name nc0.2 base fs subvol group
      match ss.1 with
      | Except.error e =>
        (Except.ok
          { user_entity := user_entity, fs_name := fs, subvol_name := subvol,
            group_name := group, source_cluster := source_name,
            created_on_source := false, updated_on_source := false,
            imported_to := [], caps_applied := [],
            errors := [(source_name, "source update/create failed: " ++ e)] },
         ch.2 ++ ss.2)
      | Except.ok res =>
        let exp := nc0.2.exportKeyring
        let keyring : Option String :=
          match exp with
          | Except.ok k => some k
          | Except.error _ => Option.none
        let errors0 : List (String × String) :=
          match exp with
          | Except.ok _ => []
          | Except.error e => [(source_name, "export failed: " ++ e)]
        let st0 : FanState :=
          { imported_to := [], caps_applied := [(source_name, res.1)], errors := errors0 }
        let fl := fanLoop source_name base fs subvol group keyring clusters st0
        (Except.ok
          { user_entity := user_entity, fs_name := fs, subvol_name := subvol,
            group_name := group, source_cluster := source_name,
            created_on_source := res.2.1, updated_on_source := res.2.2,
            imported_to := fl.1.imported_to, caps_applied := fl.1.caps_applied,
            errors := fl.1.errors },
         ch.2 ++ ss.2 ++ [CephOp.exportKeyringOp source_name] ++ fl.2)

/-! Concrete cluster behaviours used to instantiate the theorems below. -/

/-- A fully healthy cluster whose user listing already contains the entity. -/
def bhOkWithUser (ent path key : String) : ClusterBehavior :=
  { listUsers := Except.ok
      [{ user_entity := some ent, entity := Option.none, id := Option.none }],
    subvolInfo := Except.ok [("path", PyVal.str path)],
    updateCaps := fun _ => Except.ok 200,
    createUser := fun _ => Except.ok 201,
    exportKeyring := Except.ok key,
    sshImport := Except.ok () }

/-- A fully healthy cluster without the entity. -/
def bhOkNoUser (path : String) : ClusterBehavior :=
  { listUsers := Except.ok [],
    subvolInfo := Except.ok [("path", PyVal.str path)],
    updateCaps := fun _ => Except.ok 200,
    createUser := fun _ => Except.ok 201,
    exportKeyring := Except.ok "KR",
    sshImport := Except.ok () }

/-- A cluster healthy except that the capability overwrite raises. -/
def bhCapsRaise (path : String) : ClusterBehavior :=
  { bhOkNoUser path with updateCaps := fun _ => Except.error "boom" }

/-- A cluster whose subvolume-info call raises (source step fails at
path resolution). -/
def bhSubvolRaise : ClusterBehavior :=
  { bhOkNoUser "/x" with subvolInfo := Except.error "no subvolume" }

/-- A cluster on which update reports status 500, and create succeeds
(exercising the create fallback on the source). -/
def bhUpdate500 (path : String) : ClusterBehavior :=
  { bhOkNoUser path with updateCaps := fun _ => Except.ok 500 }

/-! ## First-success export

Embeds export_users_first_success and list_users_first_success from
src/fabric_ceph/utils/export_ceph_user.py.  The per-cluster behaviour is the
keyring-export outcome per entity.  keyring_minimal is imported there from
fabric_ceph.utils.keyring_parser but is absent from the source tree, so it
is modelled from the spec (section 4.10). -/

/-- Unescape the JSON escapes of a quoted keyring string. -/
def unescapeChars : List Char → List Char
  | [] => []
  | '\\' :: 'n' :: rest => '\n' :: unescapeChars rest
  | '\\' :: 't' :: rest => '\t' :: unescapeChars rest
  | '\\' :: '\\' :: rest => '\\' :: unescapeChars rest
  | '\\' :: '"' :: rest => '"' :: unescapeChars rest
  | c :: rest => c :: unescapeChars rest

/-- Join lines back with newlines. -/
def joinNl : List (List Char) → List Char
  | [] => []
  | [l] => l
  | l :: rest => l ++ '\n' :: joinNl rest

/-- Modelled from the spec: keyring_minimal is referenced from
fabric_ceph.utils.keyring_parser but missing from the source tree.  Per
section 4.10, if the input is a JSON-quoted string (starts and ends with a
literal quote) it is unescaped first; then the first two lines of the
resulting text plus a trailing newline are returned. -/
def keyring_minimal (text : String) : String :=
  let cs := text.toList
  let t : List Char :=
    if cs.head? = some '"' ∧ cs.getLast? = some '"' then
      unescapeChars ((cs.drop 1).dropLast)
    else cs
  String.mk (joinNl ((splitOnNl t).take 2) ++ ['\n'])

/-- Export behaviour of one cluster: the outcome of one keyring export per
requested entity. -/
structure ExportBehavior where
  exportKeyring : String → Except String String

/-- The per-entity inner loop body of export_users_first_success (lines
101-113): accumulate the exported entities dictionary, the last error for
this cluster if any (errors are keyed by cluster name, so a later entity's
error overwrites an earlier one), and the entities attempted. -/
def exportEntStep (b : ExportBehavior) (ko : Bool)
    (acc : List (String × String) × Option String × List String) (ent : String) :
    List (String × String) × Option String × List String :=
  match b.exportKeyring ent with
  | Except.error e => (acc.1, some e, acc.2.2 ++ [ent])
  | Except.ok k =>
    if ko then
      if keyring_minimal k = "" then
        (dictInsert acc.1 ent k, some "key not found in exported keyring", acc.2.2 ++ [ent])
      else (dictInsert acc.1 ent (keyring_minimal k), acc.2.1, acc.2.2 ++ [ent])
    else (dictInsert acc.1 ent k, acc.2.1, acc.2.2 ++ [ent])

/-- The inner loop over all requested entities for one cluster. -/
def exportEntLoop (b : ExportBehavior) (ko : Bool) (entities : List String) :
    List (String × String) × Option String × List String :=
  entities.foldl (exportEntStep b ko) ([], Option.none, [])

/-- export_users_first_success (src/fabric_ceph/utils/export_ceph_user.py
lines 65-124): a ValueError for an empty entity list; otherwise every
cluster is visited in configured order, each contributing its exported
entities to the result dictionary (a per-entity failure is recorded under
the cluster's name); the final all-failed ValueError fires only when the
result dictionary stayed empty.  The second component is the trace of
(cluster, entity) export calls. -/
def export_users_first_success (clusters : List (String × ExportBehavior))
    (entities : List String) (keyring_only : Bool) :
    Except String (List (String × List (String × String))) × List (String × String) :=
  if entities = [] then (Except.error "entities must be a non-empty list", [])
  else
    let step := fun (acc : List (String × List (String × String)) ×
                       List (String × String) × List (String × String))
                    (nc : String × ExportBehavior) =>
      let el := exportEntLoop nc.2 keyring_only entities
      let errors1 := match el.2.1 with
        | some e => dictInsert acc.2.1 nc.1 e
        | Option.none => acc.2.1
      (dictInsert acc.1 nc.1 el.1, errors1, acc.2.2 ++ el.2.2.map (fun e => (nc.1, e)))
    let fin := clusters.foldl step ([], [], [])
    if 0 < fin.2.1.length ∧ fin.1.length = 0 then
      (Except.error "No users were exported", fin.2.2)
    else (Except.ok fin.1, fin.2.2)

/-- A cluster that successfully exports every entity with keyring text k. -/
def ebOk (k : String) : ExportBehavior := { exportKeyring := fun _ => Except.ok k }

/-- A cluster whose every export raises. -/
def ebFail : ExportBehavior := { exportKeyring := fun _ => Except.error "export down" }

/-! # Theorems -/

/-- C7 counterexample: the claim says `_bool` returns false for every
non-string, non-boolean value, naming the integer 1; the code falls through
to Python truthiness, so `_bool(1)` is true. -/
theorem c7_counterexample : pyBool (PyVal.int 1) = true := by decide

/-- C7 (amended): `_bool` returns true exactly for the native boolean true,
for strings whose trimmed lower-cased form is one of 1/true/yes/y/on, and —
via the bool(x) fallback — for any non-zero integer; None and zero are
false. -/
theorem c7_bool_coercion (x : PyVal) :
    pyBool x = true ↔
      (x = PyVal.bool true ∨
       (∃ s, x = PyVal.str s ∧
          (["1", "true", "yes", "y", "on"] : List String).contains (pyLower (pyStrip s)) = true) ∨
       (∃ n, x = PyVal.int n ∧ n ≠ 0)) := by
  cases x with
  | bool b => cases b <;> simp [pyBool]
  | str s => simp [pyBool]
  | int n => simp [pyBool, pyTruthy]
  | pynone => simp [pyBool, pyTruthy]

/-- C6 counterexample: the claim says the CLUSTER_VERIFY_TLS interpretation
agrees with `_bool` on every string, in particular on y; but
DashClient.for_cluster accepts only 1/true/yes/on, so y yields
verify_tls false while `_bool` yields true. -/
theorem c6_counterexample :
    forClusterVerifyTls true (some "y") = false ∧ pyBool (PyVal.str "y") = true := by decide

/-- C6 (amended): the verify_tls interpretation agrees with `_bool` on every
string whose trimmed lower-cased form is not y; on strings trimming to
y or Y the two coercions disagree (DashClient yields false, `_bool`
true). -/
theorem c6_verify_tls_agrees_except_y (b : Bool) (s : String)
    (h : pyLower (pyStrip s) ≠ "y") :
    forClusterVerifyTls b (some s) = pyBool (PyVal.str s) := by
  simp only [forClusterVerifyTls, pyBool, dashVerifyTlsSet, List.contains_cons,
    List.contains_nil, Bool.or_false]
  have hb : (pyLower (pyStrip s) == "y") = false := by simpa [beq_iff_eq] using h
  rw [hb]
  simp

/-- C6 witness: instantiation of the agreement at the string " Yes ". -/
theorem c6_verify_tls_agrees_except_y_witness :
    pyLower (pyStrip " Yes ") ≠ "y" ∧
      forClusterVerifyTls false (some " Yes ") = pyBool (PyVal.str " Yes ") :=
  ⟨by decide, c6_verify_tls_agrees_except_y false " Yes " (by decide)⟩

/-- C1 counterexample: the claim says an operator requesting a single entity
that does not match their own login is NOT answered 401; the code's
single-entity guard never consults the operator flag, so such a request is
rejected. -/
theorem c1_counterexample :
    exportUsersAuth true "alice" ["client.bob"] = AuthDecision.reject401 := by decide

/-- C1 (amended): the export gate answers 401 exactly when either the
request names a single entity whose lower-cased text does not contain the
caller's lower-cased login (regardless of the operator role), or the
request names more than one entity and the caller lacks the operator
role.  In particular an operator may export several entities, but a
single-entity export must always match the caller's login. -/
theorem c1_export_auth_rule (isOperator : Bool) (login : String) (entities : List String) :
    exportUsersAuth isOperator login entities = AuthDecision.reject401 ↔
      ((entities.length = 1 ∧ pyIn (pyLower login) (pyLower (entities.headD "")) = false) ∨
       (1 < entities.length ∧ isOperator = false)) := by
  unfold exportUsersAuth
  split_ifs with h1 h2
  · exact iff_of_true rfl (Or.inl h1)
  · exact iff_of_true rfl (Or.inr h2)
  · refine iff_of_false (by intro hh; exact absurd hh (by decide)) ?_
    rintro (hA | hB)
    · exact h1 hA
    · exact h2 hB

/-- C5: export_users_first_success never returns early, contradicting its
docstring (returning on the first success) and the claim.  With two healthy
clusters and one entity, the first cluster yields a usable export, yet the
call trace shows the second cluster is still contacted and its export is
included in the result; with an empty entity list the documented ValueError
is raised; and when every cluster fails, the function still returns a map
of empty per-cluster results instead of the documented all-failed error. -/
theorem c5_export_contacts_all_clusters :
    (export_users_first_success [("a", ebOk "KA"), ("b", ebOk "KB")] ["client.x"] false =
      (Except.ok [("a", [("client.x", "KA")]), ("b", [("client.x", "KB")])],
       [("a", "client.x"), ("b", "client.x")])) ∧
    (export_users_first_success [("a", ebOk "KA")] [] false =
      (Except.error "entities must be a non-empty list", [])) ∧
    (export_users_first_success [("a", ebFail), ("b", ebFail)] ["client.x"] false =
      (Except.ok [("a", []), ("b", [])], [("a", "client.x"), ("b", "client.x")])) :=
  ⟨by decide, by decide, by decide⟩

/-- A successful source step always reports updated_on_source: the update
branch sets only that flag, and the create fallback sets both. -/
theorem sourceStep_ok_updated {n : String} {b : ClusterBehavior} {base : List CapTemplate}
    {fs sv : String} {grp : Option String} {t : List CapEntry × Bool × Bool}
    (h : (sourceStep n b base fs sv grp).1 = Except.ok t) : t.2.2 = true := by
  unfold sourceStep at h
  cases hsi : b.subvolInfo with
  | error e => simp only [hsi] at h; simp at h
  | ok info =>
    simp only [hsi] at h
    cases hrp : resolveSubvolPath info with
    | error e => simp only [hrp] at h; simp at h
    | ok path =>
      simp only [hrp] at h
      cases hrc : renderCaps base (clusterSubs fs sv grp path) with
      | error e => simp only [hrc] at h; simp at h
      | ok caps =>
        simp only [hrc] at h
        cases huc : b.updateCaps caps with
        | error e => simp only [huc] at h; simp at h
        | ok status =>
          simp only [huc] at h
          by_cases hst : status = 200 ∨ status = 201 ∨ status = 202
          · rw [if_pos hst] at h
            simp at h
            subst h
            rfl
          · rw [if_neg hst] at h
            cases hcu : b.createUser caps with
            | error e => simp only [hcu] at h; simp at h
            | ok st2 =>
              simp only [hcu] at h
              simp at h
              subst h
              rfl

/-- C10: in every result of ensure_user_across_clusters_with_cluster_paths,
created_on_source implies updated_on_source — the early-abort result sets
both flags false, a successful update sets updated, and the create fallback
sets both. -/
theorem c10_created_implies_updated
    (clusters : List (String × ClusterBehavior)) (ent : String) (base : List CapTemplate)
    (fs sv : String) (grp pref : Option String) (r : SyncResult)
    (h : (ensure_user_across_clusters_with_cluster_paths
            clusters ent base fs sv grp pref).1 = Except.ok r)
    (hc : r.created_on_source = true) : r.updated_on_source = true := by
  unfold ensure_user_across_clusters_with_cluster_paths at h
  cases hch : (chooseSource clusters ent pref).1 with
  | none => simp only [hch] at h; simp at h
  | some src =>
    simp only [hch] at h
    cases hf : clusters.find? (fun nc => nc.1 == src) with
    | none => simp only [hf] at h; simp at h
    | some nc0 =>
      simp only [hf] at h
      cases hss : (sourceStep src nc0.2 base fs sv grp).1 with
      | error e =>
        simp only [hss] at h
        simp at h
        subst h
        simp at hc
      | ok res =>
        simp only [hss] at h
        simp at h
        subst h
        exact sourceStep_ok_updated hss

/-- C10 witness: a concrete run exercising the create fallback, whose result
has created_on_source true; the theorem then forces updated_on_source. -/
theorem c10_created_implies_updated_witness :
    ∃ r, (ensure_user_across_clusters_with_cluster_paths
            [("a", bhUpdate500 "/va"), ("b", bhOkNoUser "/vb")]
            "client.x" [] "fs" "sv" Option.none Option.none).1 = Except.ok r ∧
      r.created_on_source = true ∧ r.updated_on_source = true := by
  have h : (ensure_user_across_clusters_with_cluster_paths
              [("a", bhUpdate500 "/va"), ("b", bhOkNoUser "/vb")]
              "client.x" [] "fs" "sv" Option.none Option.none).1 =
      Except.ok
        { user_entity := "client.x", fs_name := "fs", subvol_name := "sv",
          group_name := Option.none, source_cluster := "a",
          created_on_source := true, updated_on_source := true,
          imported_to := ["b"], caps_applied := [("a", []), ("b", [])],
          errors := [] } := by decide
  exact ⟨_, h, rfl, c10_created_implies_updated _ _ _ _ _ _ _ _ h rfl⟩

/-- Every event of the source-selection loop is a user-listing call. -/
theorem selectLoop_trace (clusters : List (String × ClusterBehavior)) (ent : String) :
    ∀ op ∈ (selectLoop clusters ent).2, ∃ c, op = CephOp.listUsersOp c := by
  induction clusters with
  | nil => intro op hop; simp [selectLoop] at hop
  | cons nc rest ih =>
    intro op hop
    by_cases hh : clusterHasUser nc.2 ent = true
    · simp [selectLoop, hh] at hop
      exact ⟨nc.1, hop⟩
    · simp [selectLoop, hh] at hop
      rcases hop with hop | hop
      · exact ⟨nc.1, hop⟩
      · exact ih op hop

/-- Source choice adds no event beyond the selection loop. -/
theorem chooseSource_trace (clusters : List (String × ClusterBehavior)) (ent : String)
    (pref : Option String) :
    (chooseSource clusters ent pref).2 = (selectLoop clusters ent).2 := by
  cases hs : (selectLoop clusters ent).1 with
  | some n => simp [chooseSource, hs]
  | none =>
    simp only [chooseSource, hs]
    split
    · rfl
    · rfl

/-- Every event of the source step touches the source cluster only. -/
theorem sourceStep_trace (n : String) (b : ClusterBehavior) (base : List CapTemplate)
    (fs sv : String) (grp : Option String) :
    ∀ op ∈ (sourceStep n b base fs sv grp).2, op.clusterOf = n := by
  intro op hop
  unfold sourceStep at hop
  cases hsi : b.subvolInfo with
  | error e => simp only [hsi] at hop; simp at hop; subst hop; rfl
  | ok info =>
    simp only [hsi] at hop
    cases hrp : resolveSubvolPath info with
    | error e => simp only [hrp] at hop; simp at hop; subst hop; rfl
    | ok path =>
      simp only [hrp] at hop
      cases hrc : renderCaps base (clusterSubs fs sv grp path) with
      | error e => simp only [hrc] at hop; simp at hop; subst hop; rfl
      | ok caps =>
        simp only [hrc] at hop
        cases huc : b.updateCaps caps with
        | error e =>
          simp only [huc] at hop
          simp at hop
          rcases hop with hop | hop <;> subst hop <;> rfl
        | ok status =>
          simp only [huc] at hop
          by_cases hst : status = 200 ∨ status = 201 ∨ status = 202
          · rw [if_pos hst] at hop
            simp at hop
            rcases hop with hop | hop <;> subst hop <;> rfl
          · rw [if_neg hst] at hop
            cases hcu : b.createUser caps with
            | error e =>
              simp only [hcu] at hop
              simp at hop
              rcases hop with hop | hop | hop <;> subst hop <;> rfl
            | ok st2 =>
              simp only [hcu] at hop
              simp at hop
              rcases hop with hop | hop | hop <;> subst hop <;> rfl

/-- C3: when the source-cluster step fails, the operation returns
immediately: the result carries exactly one error, keyed by the source
cluster, with empty imported_to and caps_applied, and every external call
of the whole run that touched a cluster other than the source was a
read-only user-listing call from source selection — no export, SSH import
or capability update reached any other cluster. -/
theorem c3_source_failure_aborts
    (clusters : List (String × ClusterBehavior)) (ent : String) (base : List CapTemplate)
    (fs sv : String) (grp pref : Option String) (src : String)
    (nc0 : String × ClusterBehavior) (e : String)
    (hch : (chooseSource clusters ent pref).1 = some src)
    (hf : clusters.find? (fun nc => nc.1 == src) = some nc0)
    (hss : (sourceStep src nc0.2 base fs sv grp).1 = Except.error e) :
    (ensure_user_across_clusters_with_cluster_paths
        clusters ent base fs sv grp pref).1 =
      Except.ok
        { user_entity := ent, fs_name := fs, subvol_name := sv, group_name := grp,
          source_cluster := src, created_on_source := false, updated_on_source := false,
          imported_to := [], caps_applied := [],
          errors := [(src, "source update/create failed: " ++ e)] } ∧
    ∀ op ∈ (ensure_user_across_clusters_with_cluster_paths
              clusters ent base fs sv grp pref).2,
      CephOp.clusterOf op ≠ src → ∃ c, op = CephOp.listUsersOp c := by
  constructor
  · unfold ensure_user_across_clusters_with_cluster_paths
    simp only [hch, hf, hss]
  · intro op hop hne
    unfold ensure_user_across_clusters_with_cluster_paths at hop
    simp only [hch, hf, hss] at hop
    rw [List.mem_append] at hop
    rcases hop with hop | hop
    · rw [chooseSource_trace] at hop
      exact selectLoop_trace clusters ent op hop
    · exact absurd (sourceStep_trace src nc0.2 base fs sv grp op hop) hne

/-- C3 witness: a concrete run whose source cluster fails at subvolume-path
resolution; the second cluster is untouched except for the selection
listing. -/
theorem c3_source_failure_aborts_witness :
    (ensure_user_across_clusters_with_cluster_paths
        [("a", bhSubvolRaise), ("b", bhOkNoUser "/vb")]
        "client.x" [] "fs" "sv" Option.none Option.none).1 =
      Except.ok
        { user_entity := "client.x", fs_name := "fs", subvol_name := "sv",
          group_name := Option.none, source_cluster := "a",
          created_on_source := false, updated_on_source := false,
          imported_to := [], caps_applied := [],
          errors := [("a", "source update/create failed: no subvolume")] } ∧
    ∀ op ∈ (ensure_user_across_clusters_with_cluster_paths
              [("a", bhSubvolRaise), ("b", bhOkNoUser "/vb")]
              "client.x" [] "fs" "sv" Option.none Option.none).2,
      CephOp.clusterOf op ≠ "a" → ∃ c, op = CephOp.listUsersOp c :=
  c3_source_failure_aborts
    [("a", bhSubvolRaise), ("b", bhOkNoUser "/vb")] "client.x" [] "fs" "sv"
    Option.none Option.none "a" ("a", bhSubvolRaise) "no subvolume"
    (by decide) rfl (by decide)

/-- A cluster returned by the selection loop is one of the configured
clusters. -/
theorem selectLoop_some_mem {clusters : List (String × ClusterBehavior)} {ent : String}
    {n : String} (h : (selectLoop clusters ent).1 = some n) :
    ∃ nc ∈ clusters, nc.1 = n := by
  induction clusters with
  | nil => simp [selectLoop] at h
  | cons nc rest ih =>
    by_cases hh : clusterHasUser nc.2 ent = true
    · simp [selectLoop, hh] at h
      exact ⟨nc, List.mem_cons_self nc rest, h⟩
    · simp [selectLoop, hh] at h
      obtain ⟨nc2, hm, he⟩ := ih h
      exact ⟨nc2, List.mem_cons_of_mem nc hm, he⟩

/-- The selection loop returns the first cluster whose listing contains the
entity. -/
theorem selectLoop_first {ent : String} (pre : List (String × ClusterBehavior))
    (nb : String × ClusterBehavior) (rest2 : List (String × ClusterBehavior))
    (hhas : clusterHasUser nb.2 ent = true)
    (hpre : ∀ nc ∈ pre, clusterHasUser nc.2 ent = false) :
    (selectLoop (pre ++ nb :: rest2) ent).1 = some nb.1 := by
  induction pre with
  | nil => simp [selectLoop, hhas]
  | cons nc pre2 ih =>
    have hnc : clusterHasUser nc.2 ent = false := hpre nc (List.mem_cons_self nc pre2)
    simp only [List.cons_append, selectLoop, hnc]
    simp only [Bool.false_eq_true, if_false]
    exact ih (fun x hx => hpre x (List.mem_cons_of_mem nc hx))

/-- When no cluster's listing contains the entity, the selection loop finds
nothing. -/
theorem selectLoop_none {clusters : List (String × ClusterBehavior)} {ent : String}
    (h : ∀ nc ∈ clusters, clusterHasUser nc.2 ent = false) :
    (selectLoop clusters ent).1 = Option.none := by
  induction clusters with
  | nil => rfl
  | cons nc rest ih =>
    have hnc := h nc (List.mem_cons_self nc rest)
    simp only [selectLoop, hnc]
    simp only [Bool.false_eq_true, if_false]
    exact ih (fun x hx => h x (List.mem_cons_of_mem nc hx))

/-- A found entity short-circuits the source choice. -/
theorem chooseSource_of_found {clusters : List (String × ClusterBehavior)} {ent : String}
    {n : String} (pref : Option String) (h : (selectLoop clusters ent).1 = some n) :
    (chooseSource clusters ent pref).1 = some n := by
  simp [chooseSource, h]

/-- The chosen source names a configured cluster. -/
theorem chooseSource_mem {clusters : List (String × ClusterBehavior)} {ent : String}
    {pref : Option String} {s : String}
    (h : (chooseSource clusters ent pref).1 = some s) :
    clusters.any (fun nc => nc.1 == s) = true := by
  cases hs : (selectLoop clusters ent).1 with
  | some n =>
    rw [chooseSource_of_found pref hs] at h
    obtain ⟨nc, hm, he⟩ := selectLoop_some_mem hs
    have hns : n = s := by simpa using h
    rw [List.any_eq_true]
    exact ⟨nc, hm, by simp [he, hns]⟩
  | none =>
    simp only [chooseSource, hs] at h
    split at h
    · rename_i hok
      cases pref with
      | none => simp at hok
      | some p =>
        have hps : p = s := by simpa using h
        simp only [bne, Bool.and_eq_true] at hok
        rw [hps] at hok
        exact hok.2
    · simp only [Option.map_eq_some'] at h
      obtain ⟨nc, hnc, he⟩ := h
      rw [List.any_eq_true]
      exact ⟨nc, List.mem_of_mem_head? hnc, by simp [he]⟩

/-- A non-empty configuration always yields a source cluster. -/
theorem chooseSource_isSome (clusters : List (String × ClusterBehavior)) (ent : String)
    (pref : Option String) (hne : clusters ≠ []) :
    ∃ s, (chooseSource clusters ent pref).1 = some s := by
  cases hs : (selectLoop clusters ent).1 with
  | some n => exact ⟨n, chooseSource_of_found pref hs⟩
  | none =>
    simp only [chooseSource, hs]
    split
    · rename_i hok
      cases pref with
      | none => simp at hok
      | some p => exact ⟨p, rfl⟩
    · cases clusters with
      | nil => exact absurd rfl hne
      | cons nc rest => exact ⟨nc.1, rfl⟩

/-- Once a source is chosen, the orchestration returns a result whose
source_cluster field is that choice (whether or not the source step
succeeds). -/
theorem ensure_ok_source (clusters : List (String × ClusterBehavior)) (ent : String)
    (base : List CapTemplate) (fs sv : String) (grp pref : Option String) (s : String)
    (hch : (chooseSource clusters ent pref).1 = some s) :
    ∃ r, (ensure_user_across_clusters_with_cluster_paths
            clusters ent base fs sv grp pref).1 = Except.ok r ∧
      r.source_cluster = s := by
  have hany := chooseSource_mem hch
  have hfind : (clusters.find? (fun nc => nc.1 == s)).isSome := by
    rw [List.find?_isSome]
    rw [List.any_eq_true] at hany
    exact hany
  obtain ⟨nc0, hf⟩ := Option.isSome_iff_exists.mp hfind
  unfold ensure_user_across_clusters_with_cluster_paths
  simp only [hch, hf]
  cases hss : (sourceStep s nc0.2 base fs sv grp).1 with
  | error e => exact ⟨_, rfl, rfl⟩
  | ok res => exact ⟨_, rfl, rfl⟩

/-- C2 (amended): the orchestration selects exactly one source cluster: the
first cluster in configured order whose user list contains the entity
(regardless of preferred_source); otherwise preferred_source when it is a
non-empty string naming a configured cluster; otherwise the first configured
cluster (an empty preferred_source string is falsy in Python and falls
through to the first cluster). -/
theorem c2_source_selection
    (clusters : List (String × ClusterBehavior)) (ent : String) (base : List CapTemplate)
    (fs sv : String) (grp pref : Option String) (hne : clusters ≠ []) :
    ∃ r, (ensure_user_across_clusters_with_cluster_paths
            clusters ent base fs sv grp pref).1 = Except.ok r ∧
      ((∀ pre nb rest2, clusters = pre ++ nb :: rest2 →
          clusterHasUser nb.2 ent = true →
          (∀ nc ∈ pre, clusterHasUser nc.2 ent = false) →
          r.source_cluster = nb.1) ∧
       ((∀ nc ∈ clusters, clusterHasUser nc.2 ent = false) →
          ∀ p, pref = some p → p ≠ "" → (∃ nc ∈ clusters, nc.1 = p) →
          r.source_cluster = p) ∧
       ((∀ nc ∈ clusters, clusterHasUser nc.2 ent = false) →
          (∀ p, pref = some p → p = "" ∨ ∀ nc ∈ clusters, nc.1 ≠ p) →
          r.source_cluster = (clusters.head hne).1)) := by
  obtain ⟨s, hch⟩ := chooseSource_isSome clusters ent pref hne
  obtain ⟨r, hok, hsrc⟩ := ensure_ok_source clusters ent base fs sv grp pref s hch
  refine ⟨r, hok, ?_, ?_, ?_⟩
  · intro pre nb rest2 hdec hhas hpre
    have h1 : (selectLoop clusters ent).1 = some nb.1 := by
      rw [hdec]; exact selectLoop_first pre nb rest2 hhas hpre
    have h2 := chooseSource_of_found pref h1
    rw [hch] at h2
    rw [hsrc]
    exact Option.some.inj h2
  · intro hall p hp hpne hex
    have h0 : (selectLoop clusters ent).1 = Option.none := selectLoop_none hall
    have hcs : (chooseSource clusters ent pref).1 = some p := by
      subst hp
      simp only [chooseSource, h0]
      have hok : ((p != "") && clusters.any (fun nc => nc.1 == p)) = true := by
        rw [Bool.and_eq_true]
        refine ⟨bne_iff_ne.mpr hpne, ?_⟩
        rw [List.any_eq_true]
        obtain ⟨nc, hm, he⟩ := hex
        exact ⟨nc, hm, by simp [he]⟩
      rw [if_pos hok]
    have h2 : s = p := by
      rw [hch] at hcs
      exact Option.some.inj hcs
    rw [hsrc]
    exact h2
  · intro hall hcond
    have h0 : (selectLoop clusters ent).1 = Option.none := selectLoop_none hall
    have hcs : (chooseSource clusters ent pref).1 =
        clusters.head?.map (fun nc => nc.1) := by
      cases pref with
      | none => simp [chooseSource, h0]
      | some p =>
        rcases hcond p rfl with hpe | hnp
        · subst hpe
          simp [chooseSource, h0]
        · have hanyf : clusters.any (fun nc => nc.1 == p) = false := by
            rw [List.any_eq_false]
            intro nc hm
            simpa using hnp nc hm
          simp [chooseSource, h0, hanyf]
    have hh : clusters.head? = some (clusters.head hne) := List.head?_eq_head hne
    rw [hch, hh] at hcs
    simp only [Option.map_some'] at hcs
    rw [hsrc]
    exact Option.some.inj hcs

/-- C2 witness: with a single configured cluster, no matching entity and no
preferred source, the source is the first configured cluster. -/
theorem c2_source_selection_witness :
    ∃ r, (ensure_user_across_clusters_with_cluster_paths
            [("a", bhOkNoUser "/va"), ("b", bhOkNoUser "/vb")]
            "client.x" [] "fs" "sv" Option.none Option.none).1 = Except.ok r ∧
      r.source_cluster = "a" := by
  obtain ⟨r, hok, hconj⟩ :=
    c2_source_selection [("a", bhOkNoUser "/va"), ("b", bhOkNoUser "/vb")]
      "client.x" [] "fs" "sv" Option.none Option.none (by simp)
  refine ⟨r, hok, ?_⟩
  have := hconj.2.2 (by decide) (fun p hp => by cases hp)
  simpa using this

/-- C2 counterexample: the claim says preferred_source is honoured whenever
it names a configured cluster; but Python's truthiness check drops an empty
preferred_source string even when a cluster is literally named by the empty
string, so the first cluster is chosen instead. -/
theorem c2_counterexample :
    (Except.map SyncResult.source_cluster
      (ensure_user_across_clusters_with_cluster_paths
        [("a", bhOkNoUser "/va"), ("", bhOkNoUser "/ve")]
        "client.x" [] "fs" "sv" Option.none (some "")).1) = Except.ok "a" ∧
    ("a" : String) ≠ "" := by
  refine ⟨by decide, by decide⟩

/-- C4 counterexample: the claim says the failed cluster b is excluded from
the imported_to list; but the code appends b to it as soon as b's SSH
keyring push succeeds, before the capability overwrite that then fails, so
the result lists b as imported while also carrying b's error. -/
theorem c4_counterexample :
    (ensure_user_across_clusters_with_cluster_paths
      [("a", bhOkWithUser "client.x" "/va" "K"), ("b", bhCapsRaise "/vb"),
       ("c", bhOkNoUser "/vc")]
      "client.x" [] "fs" "sv" Option.none Option.none).1 =
    Except.ok
      { user_entity := "client.x", fs_name := "fs", subvol_name := "sv",
        group_name := Option.none, source_cluster := "a",
        created_on_source := false, updated_on_source := true,
        imported_to := ["b", "c"],
        caps_applied := [("a", []), ("b", []), ("c", [])],
        errors := [("b", "boom")] } := by decide

/-- C4 (amended): with three clusters a (source, found by the selection
loop), b and c, where b fails only at the capability overwrite (its SSH
keyring push having succeeded) and c succeeds fully, the errors map is
exactly the single entry keyed b, imported_to is [b, c] — it INCLUDES b,
whose keyring import succeeded before the failing overwrite — and iteration
reached c: c's capability update appears in the call trace (no abort). -/
theorem c4_partial_failure_continues
    (na nb nc : String) (ba bb bc : ClusterBehavior) (ent : String)
    (base : List CapTemplate) (fs sv : String) (grp pref : Option String)
    (infoB infoC : List (String × PyVal)) (pB pC : String)
    (capsA capsB capsC : List CapEntry) (crA upA : Bool) (k e : String)
    (hab : na ≠ nb) (hac : na ≠ nc) (hbc : nb ≠ nc)
    (hfound : clusterHasUser ba ent = true)
    (hss : (sourceStep na ba base fs sv grp).1 = Except.ok (capsA, crA, upA))
    (hexp : ba.exportKeyring = Except.ok k)
    (hbssh : bb.sshImport = Except.ok ())
    (hbsi : bb.subvolInfo = Except.ok infoB)
    (hbrp : resolveSubvolPath infoB = Except.ok pB)
    (hbrc : renderCaps base (clusterSubs fs sv grp pB) = Except.ok capsB)
    (hbuc : bb.updateCaps capsB = Except.error e)
    (hcssh : bc.sshImport = Except.ok ())
    (hcsi : bc.subvolInfo = Except.ok infoC)
    (hcrp : resolveSubvolPath infoC = Except.ok pC)
    (hcrc : renderCaps base (clusterSubs fs sv grp pC) = Except.ok capsC)
    (hcuc : ∃ st2, bc.updateCaps capsC = Except.ok st2) :
    ∃ r, (ensure_user_across_clusters_with_cluster_paths
            [(na, ba), (nb, bb), (nc, bc)] ent base fs sv grp pref).1 = Except.ok r ∧
      r.errors = [(nb, e)] ∧
      r.imported_to = [nb, nc] ∧
      CephOp.updateCapsOp nc ∈
        (ensure_user_across_clusters_with_cluster_paths
          [(na, ba), (nb, bb), (nc, bc)] ent base fs sv grp pref).2 := by
  obtain ⟨st2, hcu⟩ := hcuc
  have hnab : ¬ (nb = na) := fun hh => hab hh.symm
  have hnac : ¬ (nc = na) := fun hh => hac hh.symm
  have hsel : (selectLoop [(na, ba), (nb, bb), (nc, bc)] ent).1 = some na := by
    simp [selectLoop, hfound]
  have hch := chooseSource_of_found pref hsel
  have hfind : List.find? (fun nc2 => nc2.1 == na) [(na, ba), (nb, bb), (nc, bc)] =
      some (na, ba) := by
    simp [List.find?]
  unfold ensure_user_across_clusters_with_cluster_paths
  simp only [hch, hfind, hss, hexp]
  simp only [fanLoop, fanStep, fanCaps, dictInsert, if_pos rfl, if_neg hnab, if_neg hnac,
    hbssh, hbsi, hbrp, hbrc, hbuc, hcssh, hcsi, hcrp, hcrc, hcu]
  have hnbc : ¬ (nc = nb) := fun hh => hbc hh.symm
  simp [beq_iff_eq, hab, hac, hbc, hnab, hnac, hnbc]

/-- C4 witness: concrete three-cluster instantiation of the partial-failure
theorem. -/
theorem c4_partial_failure_continues_witness :
    ∃ r, (ensure_user_across_clusters_with_cluster_paths
            [("a", bhOkWithUser "client.x" "/va" "K"), ("b", bhCapsRaise "/vb"),
             ("c", bhOkNoUser "/vc")]
            "client.x" [] "fs" "sv" Option.none Option.none).1 = Except.ok r ∧
      r.errors = [("b", "boom")] ∧
      r.imported_to = ["b", "c"] ∧
      CephOp.updateCapsOp "c" ∈
        (ensure_user_across_clusters_with_cluster_paths
          [("a", bhOkWithUser "client.x" "/va" "K"), ("b", bhCapsRaise "/vb"),
           ("c", bhOkNoUser "/vc")]
          "client.x" [] "fs" "sv" Option.none Option.none).2 :=
  c4_partial_failure_continues "a" "b" "c"
    (bhOkWithUser "client.x" "/va" "K") (bhCapsRaise "/vb") (bhOkNoUser "/vc")
    "client.x" [] "fs" "sv" Option.none Option.none
    [("path", PyVal.str "/vb")] [("path", PyVal.str "/vc")] "/vb" "/vc"
    [] [] [] false true "K" "boom"
    (by decide) (by decide) (by decide)
    (by decide) (by decide) (by decide)
    (by decide) (by decide) (by decide) (by decide)
    (by decide) (by decide) (by decide) (by decide)
    (by decide) ⟨200, by decide⟩

/-- The section split is a decomposition of the original lines: prelude,
then each section's header line followed by its body. -/
theorem splitSections_join (lines : List String) :
    lines = (splitSections lines).1 ++
      ((splitSections lines).2.flatMap (fun t => t.1 :: t.2.2)) := by
  induction lines with
  | nil => rfl
  | cons l rest ih =>
    cases hp : parseHeaderName l.toList with
    | some n =>
      simp only [splitSections, hp]
      simpa using ih
    | none =>
      simp only [splitSections, hp]
      simpa using ih

/-- No prelude line is a header. -/
theorem splitSections_pre (lines : List String) :
    ∀ l ∈ (splitSections lines).1, parseHeaderName l.toList = Option.none := by
  induction lines with
  | nil => intro l hl; simp [splitSections] at hl
  | cons l0 rest ih =>
    intro l hl
    cases hp : parseHeaderName l0.toList with
    | some n =>
      simp only [splitSections, hp] at hl
      simp at hl
    | none =>
      simp only [splitSections, hp] at hl
      rcases List.mem_cons.mp hl with he | hm
      · rw [he]; exact hp
      · exact ih l hm

/-- Every section's stored name is the one its header line parses to. -/
theorem splitSections_name (lines : List String) :
    ∀ t ∈ (splitSections lines).2, parseHeaderName t.1.toList = some t.2.1 := by
  induction lines with
  | nil => intro t ht; simp [splitSections] at ht
  | cons l0 rest ih =>
    intro t ht
    cases hp : parseHeaderName l0.toList with
    | some n =>
      simp only [splitSections, hp] at ht
      rcases List.mem_cons.mp ht with he | hm
      · rw [he]; exact hp
      · exact ih t hm
    | none =>
      simp only [splitSections, hp] at ht
      exact ih t ht

/-- No body line of any section is a header (bodies stop at the next
header). -/
theorem splitSections_body (lines : List String) :
    ∀ t ∈ (splitSections lines).2, ∀ l ∈ t.2.2,
      parseHeaderName l.toList = Option.none := by
  induction lines with
  | nil => intro t ht; simp [splitSections] at ht
  | cons l0 rest ih =>
    intro t ht
    cases hp : parseHeaderName l0.toList with
    | some n =>
      simp only [splitSections, hp] at ht
      rcases List.mem_cons.mp ht with he | hm
      · intro l hl
        rw [he] at hl
        exact splitSections_pre rest l hl
      · exact ih t hm
    | none =>
      simp only [splitSections, hp] at ht
      exact ih t ht

/-- The split yields no section exactly when no line is a header. -/
theorem splitSections_nil_iff (lines : List String) :
    (splitSections lines).2 = [] ↔
      ∀ l ∈ lines, parseHeaderName l.toList = Option.none := by
  induction lines with
  | nil => simp [splitSections]
  | cons l0 rest ih =>
    cases hp : parseHeaderName l0.toList with
    | some n =>
      simp only [splitSections, hp]
      constructor
      · intro h; cases h
      · intro h
        have := h l0 (List.mem_cons_self l0 rest)
        rw [this] at hp; cases hp
    | none =>
      simp only [splitSections, hp]
      rw [ih]
      constructor
      · intro h l hl
        rcases List.mem_cons.mp hl with he | hm
        · rw [he]; exact hp
        · exact h l hm
      · intro h l hl
        exact h l (List.mem_cons_of_mem l0 hl)

/-- C8: on text containing at least one section header, a key returned for
an entity comes strictly from that entity's own section: the line list
decomposes as a prefix, the matching header line, a header-free body
containing the key line, and a remainder; when no section's stripped name
equals the entity the extraction returns nothing; and the bare whole-text
key search is used exactly when the text contains no header line at all. -/
theorem c8_keyring_extraction (text entity : String) (hent : entity ≠ "") :
    ((∃ l ∈ pyLines text, (parseHeaderName l.toList).isSome = true) →
       (∀ k, extract_key_from_keyring text entity = some k →
          ∃ pre hl n body rest2,
            pyLines text = pre ++ hl :: (body ++ rest2) ∧
            parseHeaderName hl.toList = some n ∧ pyStrip n = entity ∧
            (∀ l ∈ body, parseHeaderName l.toList = Option.none) ∧
            findKeyInLines body = some k) ∧
       ((∀ t ∈ (splitSections (pyLines text)).2, pyStrip t.2.1 ≠ entity) →
          extract_key_from_keyring text entity = Option.none)) ∧
    ((∀ l ∈ pyLines text, parseHeaderName l.toList = Option.none) →
       extract_key_from_keyring text entity =
         if text = "" then Option.none else findKeyInLines (pyLines text)) := by
  constructor
  · intro hex
    have hsne : (splitSections (pyLines text)).2 ≠ [] := by
      intro h0
      obtain ⟨l, hm, hsome⟩ := hex
      have hnone := (splitSections_nil_iff (pyLines text)).mp h0 l hm
      rw [hnone] at hsome
      cases hsome
    have hemp : ((splitSections (pyLines text)).2).isEmpty = false := by
      cases hq : (splitSections (pyLines text)).2 with
      | nil => exact absurd hq hsne
      | cons t ts => rfl
    constructor
    · intro k hk
      unfold extract_key_from_keyring at hk
      by_cases hte : text = "" ∨ entity = ""
      · rw [if_pos hte] at hk; cases hk
      · rw [if_neg hte] at hk
        simp only [hemp] at hk
        simp only [Bool.false_eq_true, if_false] at hk
        cases hf : (splitSections (pyLines text)).2.find?
            (fun t => pyStrip t.2.1 == entity) with
        | none => rw [hf] at hk; cases hk
        | some t =>
          rw [hf] at hk
          have hmem := List.mem_of_find?_eq_some hf
          have hpt : pyStrip t.2.1 = entity := by
            have := List.find?_some hf
            simpa [beq_iff_eq] using this
          obtain ⟨s1, s2, hdecomp⟩ := List.append_of_mem hmem
          refine ⟨(splitSections (pyLines text)).1 ++ s1.flatMap (fun t2 => t2.1 :: t2.2.2),
                  t.1, t.2.1, t.2.2, s2.flatMap (fun t2 => t2.1 :: t2.2.2),
                  ?_, splitSections_name _ t hmem, hpt,
                  fun l hl => splitSections_body _ t hmem l hl, hk⟩
          have hj := splitSections_join (pyLines text)
          rw [hdecomp] at hj
          refine hj.trans ?_
          simp [List.flatMap_append, List.flatMap_cons, List.append_assoc]
    · intro hnot
      unfold extract_key_from_keyring
      by_cases hte : text = "" ∨ entity = ""
      · rw [if_pos hte]
      · rw [if_neg hte]
        simp only [hemp]
        simp only [Bool.false_eq_true, if_false]
        have hf : (splitSections (pyLines text)).2.find?
            (fun t => pyStrip t.2.1 == entity) = Option.none := by
          rw [List.find?_eq_none]
          intro t ht
          simpa [beq_iff_eq] using hnot t ht
        rw [hf]
  · intro hnone
    unfold extract_key_from_keyring
    by_cases hte0 : text = ""
    · simp [hte0]
    · have hcond : ¬ (text = "" ∨ entity = "") := by
        intro hh
        rcases hh with hh | hh
        · exact hte0 hh
        · exact hent hh
      rw [if_neg hcond, if_neg hte0]
      have h0 : (splitSections (pyLines text)).2 = [] :=
        (splitSections_nil_iff _).mpr hnone
      simp [h0]

/-- C8 witness: on two-section keyring text the extraction for client.bar is
settled through the header-present branch; instantiated here with an absent
section, forcing the None result. -/
theorem c8_keyring_extraction_witness :
    extract_key_from_keyring "[client.foo]\n\tkey = AAAA\n" "client.bar" =
      Option.none :=
  ((c8_keyring_extraction "[client.foo]\n\tkey = AAAA\n" "client.bar"
    (by decide)).1 (by decide)).2 (by decide)

/-- Every character kept by takeWhile satisfies the predicate. -/
theorem takeWhile_all {p : Char → Bool} :
    ∀ (l : List Char), ∀ c ∈ l.takeWhile p, p c = true := by
  intro l
  induction l with
  | nil => intro c hc; simp at hc
  | cons a t ih =>
    intro c hc
    rw [List.takeWhile_cons] at hc
    by_cases hp : p a = true
    · rw [if_pos hp] at hc
      rcases List.mem_cons.mp hc with he | hm
      · rw [he]; exact hp
      · exact ih c hm
    · rw [if_neg hp] at hc
      simp at hc

/-- dropWhile skips over a block of satisfying characters. -/
theorem dropWhile_append_of_all {p : Char → Bool} {ws l : List Char}
    (h : ∀ c ∈ ws, p c = true) : (ws ++ l).dropWhile p = l.dropWhile p := by
  induction ws with
  | nil => rfl
  | cons a t ih =>
    have ha : p a = true := h a (List.mem_cons_self a t)
    rw [List.cons_append, List.dropWhile_cons, if_pos ha]
    exact ih (fun c hc => h c (List.mem_cons_of_mem a hc))

/-- A whitespace character of the duration or keyring regexes is not a
digit. -/
theorem pyIsSpace_not_digit {c : Char} (h : pyIsSpace c = true) : c.isDigit = false := by
  simp only [pyIsSpace, Bool.or_eq_true, beq_iff_eq] at h
  rcases h with ((((h | h) | h) | h) | h) | h <;> subst h <;> decide

/-- A digit is not whitespace. -/
theorem digit_not_pyIsSpace {c : Char} (h : c.isDigit = true) : pyIsSpace c = false := by
  cases hsp : pyIsSpace c
  · rfl
  · rw [pyIsSpace_not_digit hsp] at h
    cases h

/-- The minute-and-second tail matcher succeeds exactly on the regex's
tail shape. -/
theorem hmsTail_eq_some_iff {h0 : Nat} {tail : List Char} {h m s : Nat} :
    hmsTail h0 tail = some (h, m, s) ↔
      ∃ m1 m2 u1 u2 ws2, tail = m1 :: m2 :: ':' :: u1 :: u2 :: ws2 ∧
        isHighDigit m1 = true ∧ m2.isDigit = true ∧ isHighDigit u1 = true ∧
        u2.isDigit = true ∧ (∀ c ∈ ws2, pyIsSpace c = true) ∧
        h = h0 ∧ m = 10 * digitVal m1 + digitVal m2 ∧
        s = 10 * digitVal u1 + digitVal u2 := by
  constructor
  · intro hh
    unfold hmsTail at hh
    split at hh
    · rename_i m1 m2 u1 u2 rest
      split at hh
      · rename_i hguard
        simp only [Bool.and_eq_true, List.all_eq_true] at hguard
        obtain ⟨⟨⟨⟨hm1, hm2⟩, hu1⟩, hu2⟩, hws⟩ := hguard
        simp only [Option.some.injEq, Prod.mk.injEq] at hh
        exact ⟨m1, m2, u1, u2, rest, rfl, hm1, hm2, hu1, hu2, hws,
          hh.1.symm, hh.2.1.symm, hh.2.2.symm⟩
      · cases hh
    · cases hh
  · rintro ⟨m1, m2, u1, u2, ws2, ht, hm1, hm2, hu1, hu2, hws, hhe, hme, hse⟩
    subst ht
    unfold hmsTail
    have hguard : (isHighDigit m1 && m2.isDigit && isHighDigit u1 && u2.isDigit &&
        ws2.all pyIsSpace) = true := by
      simp only [Bool.and_eq_true, List.all_eq_true]
      exact ⟨⟨⟨⟨hm1, hm2⟩, hu1⟩, hu2⟩, hws⟩
    show (if (isHighDigit m1 && m2.isDigit && isHighDigit u1 && u2.isDigit &&
            ws2.all pyIsSpace) = true then
          some (h0, 10 * digitVal m1 + digitVal m2, 10 * digitVal u1 + digitVal u2)
        else Option.none) = some (h, m, s)
    rw [if_pos hguard, hhe, hme, hse]

/-- The hour-tail matcher rejects an empty remainder. -/
theorem matchHourTail_nil (d1 : Char) : matchHourTail d1 [] = Option.none := rfl

/-- The hour-tail matcher rejects a one-character remainder. -/
theorem matchHourTail_single (d1 c2 : Char) : matchHourTail d1 [c2] = Option.none := by
  unfold matchHourTail
  split
  · rename_i d2 tail heq
    cases heq
  · rename_i hn heq
    cases heq
    rfl
  · rfl

/-- With a colon in second position the hour-tail matcher takes the
two-digit-hour branch. -/
theorem matchHourTail_digit2 (d1 c2 : Char) (rest3 : List Char) :
    matchHourTail d1 (c2 :: ':' :: rest3) =
      if c2.isDigit = true then hmsTail (10 * digitVal d1 + digitVal c2) rest3
      else Option.none := by
  unfold matchHourTail
  split
  · rename_i d2 tail heq
    injection heq with e1 heq2
    injection heq2 with e2 e3
    subst e1
    subst e3
    rfl
  · rename_i tail hn heq
    injection heq with e1 e2
    exact (hn rest3 e2.symm).elim
  · rename_i hn1 hn2
    exact (hn1 c2 rest3 rfl).elim

/-- With a leading colon and no second colon right after it, the hour-tail
matcher takes the one-digit-hour branch. -/
theorem matchHourTail_colon (d1 : Char) (tail : List Char)
    (hne : ∀ t2, tail ≠ ':' :: t2) :
    matchHourTail d1 (':' :: tail) = hmsTail (digitVal d1) tail := by
  unfold matchHourTail
  split
  · rename_i d2 t2 heq
    injection heq with e1 e2
    exact (hne t2 e2).elim
  · rename_i hn heq
    injection heq with e1 e2
    rw [e2]
  · rename_i hn1 hn2
    exact (hn2 tail rfl).elim

/-- Without a colon in first or second position the hour-tail matcher
rejects. -/
theorem matchHourTail_other (d1 c2 c3 : Char) (rest3 : List Char)
    (h2 : c2 ≠ ':') (h3 : c3 ≠ ':') :
    matchHourTail d1 (c2 :: c3 :: rest3) = Option.none := by
  unfold matchHourTail
  split
  · rename_i d2 tail heq
    injection heq with e1 heq2
    injection heq2 with e2 e3
    exact (h3 e2).elim
  · rename_i hn heq
    injection heq with e1 e2
    exact (h2 e1).elim
  · rfl

/-- The duration matcher succeeds exactly on the specification shape. -/
theorem matchHMS_eq_some_iff {cs : List Char} {h m s : Nat} :
    matchHMS cs = some (h, m, s) ↔ hmsShape cs h m s := by
  constructor
  · intro hh
    unfold matchHMS at hh
    split at hh
    · rename_i d1 rest ht
      have hcs : cs = cs.takeWhile pyIsSpace ++ d1 :: rest := by
        rw [← ht, List.takeWhile_append_dropWhile]
      split at hh
      · rename_i hd1
        rcases rest with _ | ⟨c2, _ | ⟨c3, rest3⟩⟩
        · rw [matchHourTail_nil] at hh; cases hh
        · rw [matchHourTail_single] at hh; cases hh
        · by_cases h3 : c3 = ':'
          · subst h3
            rw [matchHourTail_digit2] at hh
            by_cases hc2 : c2.isDigit = true
            · rw [if_pos hc2] at hh
              obtain ⟨m1, m2, u1, u2, ws2, htl, hm1, hm2, hu1, hu2, hws, hhe, hme, hse⟩ :=
                hmsTail_eq_some_iff.mp hh
              refine ⟨cs.takeWhile pyIsSpace, [d1, c2], m1, m2, u1, u2, ws2, ?_,
                fun c hc => takeWhile_all cs c hc, hws, ?_, Or.inr rfl,
                hm1, hm2, hu1, hu2, ?_, hme, hse⟩
              · refine hcs.trans ?_
                rw [htl]
                simp
              · intro c hc
                rcases List.mem_cons.mp hc with he | hc2m
                · rw [he]; exact hd1
                · rcases List.mem_cons.mp hc2m with he | hc3m
                  · rw [he]; exact hc2
                  · simp at hc3m
              · rw [hhe]
                simp [decimalVal, digitVal]
            · rw [if_neg hc2] at hh; cases hh
          · by_cases h2 : c2 = ':'
            · subst h2
              rw [matchHourTail_colon d1 (c3 :: rest3)
                (by intro t2 hq; injection hq with hq1 hq2; exact h3 hq1)] at hh
              obtain ⟨m1, m2, u1, u2, ws2, htl, hm1, hm2, hu1, hu2, hws, hhe, hme, hse⟩ :=
                hmsTail_eq_some_iff.mp hh
              refine ⟨cs.takeWhile pyIsSpace, [d1], m1, m2, u1, u2, ws2, ?_,
                fun c hc => takeWhile_all cs c hc, hws, ?_, Or.inl rfl,
                hm1, hm2, hu1, hu2, ?_, hme, hse⟩
              · refine hcs.trans ?_
                rw [htl]
                simp
              · intro c hc
                rcases List.mem_cons.mp hc with he | hc2m
                · rw [he]; exact hd1
                · simp at hc2m
              · rw [hhe]
                simp [decimalVal]
            · rw [matchHourTail_other d1 c2 c3 rest3 h2 h3] at hh; cases hh
      · cases hh
    · cases hh
  · rintro ⟨ws1, hd, m1, m2, u1, u2, ws2, hcs, hws1, hws2, hdig, hlen, hm1, hm2,
      hu1, hu2, hhe, hme, hse⟩
    have hm1ne : m1 ≠ ':' := by
      intro he
      rw [he] at hm1
      cases hm1
    rcases hlen with h1 | h2
    · obtain ⟨d1, hde⟩ := List.length_eq_one.mp h1
      subst hde
      have hd1 : d1.isDigit = true := hdig d1 (List.mem_singleton.mpr rfl)
      have hdrop : cs.dropWhile pyIsSpace =
          d1 :: ':' :: m1 :: m2 :: ':' :: u1 :: u2 :: ws2 := by
        rw [hcs, List.append_assoc, dropWhile_append_of_all hws1,
          List.singleton_append, List.dropWhile_cons,
          if_neg (by simp [digit_not_pyIsSpace hd1])]
      unfold matchHMS
      rw [hdrop]
      show (if d1.isDigit = true then
            matchHourTail d1 (':' :: m1 :: m2 :: ':' :: u1 :: u2 :: ws2)
          else Option.none) = some (h, m, s)
      rw [if_pos hd1]
      rw [matchHourTail_colon d1 (m1 :: m2 :: ':' :: u1 :: u2 :: ws2)
        (by intro t2 hq; injection hq with hq1 hq2; exact hm1ne hq1)]
      rw [hmsTail_eq_some_iff]
      refine ⟨m1, m2, u1, u2, ws2, rfl, hm1, hm2, hu1, hu2, hws2, ?_, hme, hse⟩
      rw [hhe]
      simp [decimalVal]
    · obtain ⟨d1, d2, hde⟩ := List.length_eq_two.mp h2
      subst hde
      have hd1 : d1.isDigit = true := hdig d1 (by simp)
      have hd2 : d2.isDigit = true := hdig d2 (by simp)
      have hdrop : cs.dropWhile pyIsSpace =
          d1 :: d2 :: ':' :: m1 :: m2 :: ':' :: u1 :: u2 :: ws2 := by
        rw [hcs, List.append_assoc, dropWhile_append_of_all hws1]
        simp only [List.cons_append, List.nil_append]
        rw [List.dropWhile_cons, if_neg (by simp [digit_not_pyIsSpace hd1])]
      unfold matchHMS
      rw [hdrop]
      show (if d1.isDigit = true then
            matchHourTail d1 (d2 :: ':' :: m1 :: m2 :: ':' :: u1 :: u2 :: ws2)
          else Option.none) = some (h, m, s)
      rw [if_pos hd1, matchHourTail_digit2, if_pos hd2, hmsTail_eq_some_iff]
      refine ⟨m1, m2, u1, u2, ws2, rfl, hm1, hm2, hu1, hu2, hws2, ?_, hme, hse⟩
      rw [hhe]
      simp [decimalVal]

/-- C9: parse_hms_to_timedelta succeeds, with value h*3600 + m*60 + s
seconds, exactly on strings of the regex shape (optional surrounding
whitespace, a 1- or 2-digit hour, 2-digit minutes and seconds each at most
59); in particular 00:10:00 is ten minutes, 1:02:03 is 1h2m3s, and
24:61:00 is rejected. -/
theorem c9_duration_parse :
    (∀ (str : String) (v : Nat),
        parse_hms_to_timedelta str = Except.ok v ↔
          ∃ h m s, hmsShape str.toList h m s ∧ v = h * 3600 + m * 60 + s) ∧
    parse_hms_to_timedelta "00:10:00" = Except.ok 600 ∧
    parse_hms_to_timedelta "1:02:03" = Except.ok 3723 ∧
    parse_hms_to_timedelta "24:61:00" =
      Except.error "Invalid HH:MM:SS duration: 24:61:00" := by
  refine ⟨?_, by decide, by decide, by decide⟩
  intro str v
  constructor
  · intro hp
    unfold parse_hms_to_timedelta at hp
    cases hm : matchHMS str.toList with
    | none => rw [hm] at hp; cases hp
    | some t =>
      rw [hm] at hp
      rcases t with ⟨h, m, s⟩
      simp only [Except.ok.injEq] at hp
      exact ⟨h, m, s, matchHMS_eq_some_iff.mp hm, hp.symm⟩
  · rintro ⟨h, m, s, hsh, hv⟩
    unfold parse_hms_to_timedelta
    rw [matchHMS_eq_some_iff.mpr hsh, hv]

end FabricCeph
